import Mathlib

set_option linter.unusedVariables false

/-!
Verification of `safe_learning_environments/envs/target_hazard_world.py`.

The environment `TargetHazardWorld` simulates three point masses (agent,
target, hazard) on a bounded 2-D plane.  We embed its numeric state over ℚ
(the Python code uses IEEE doubles; the spec's arithmetic claims are stated
over exact arithmetic).  The numpy `Generator` owned by the environment is
embedded as an abstract stream of 2-D draws indexed by a cursor: numpy's
seeded generator is a deterministic function of the seed, so a seed is
mapped to a stream by an arbitrary fixed function.
-/

/-- A 2-D vector of rationals, modelling a numpy float array of shape (2,). -/
structure Vec2 where
  x : ℚ
  y : ℚ
deriving DecidableEq, Repr

namespace Vec2

/-- Componentwise addition (numpy `+` on shape-(2,) arrays). -/
def add (u v : Vec2) : Vec2 := ⟨u.x + v.x, u.y + v.y⟩

/-- Componentwise subtraction (numpy `-`). -/
def sub (u v : Vec2) : Vec2 := ⟨u.x - v.x, u.y - v.y⟩

/-- Multiplication of a vector by a scalar on the right (`v * c` in numpy). -/
def mulS (v : Vec2) (c : ℚ) : Vec2 := ⟨v.x * c, v.y * c⟩

/-- Embeds `np.zeros(shape=(2,))`. -/
def zero : Vec2 := ⟨0, 0⟩

end Vec2

/-- Embeds `np.clip(a, lo, hi)`, one component: `min(max(a, lo), hi)`
(numpy documents `clip` as `minimum(a_max, maximum(a, a_min))`). -/
def clipQ (a lo hi : ℚ) : ℚ := min (max a lo) hi

/-- Embeds `np.clip` applied componentwise to a shape-(2,) array. -/
def Vec2.clip (v : Vec2) (lo hi : ℚ) : Vec2 := ⟨clipQ v.x lo hi, clipQ v.y lo hi⟩

/-- Squared Euclidean norm of a 2-D vector. -/
def Vec2.normSq (v : Vec2) : ℚ := v.x ^ 2 + v.y ^ 2

/-- Embeds `np.linalg.norm v < c`, decided over ℚ: since the Euclidean norm is
nonnegative, `‖v‖ < c` holds iff `0 < c` and `‖v‖² < c²`.
(`normLtQ_iff_sqrt` below certifies this against the real square root.) -/
def normLtQ (v : Vec2) (c : ℚ) : Bool := decide (0 < c ∧ v.normSq < c ^ 2)

/-- Both components within `[-m, m]`. -/
def Vec2.inBox (v : Vec2) (m : ℚ) : Prop := |v.x| ≤ m ∧ |v.y| ≤ m

instance (v : Vec2) (m : ℚ) : Decidable (v.inBox m) := by
  unfold Vec2.inBox; infer_instance

namespace TargetHazardWorld

/-- The constant `metadata["render_fps"]`. -/
def render_fps : ℚ := 24

/-- The constant `metadata["render_modes"]`. -/
def render_modes : List String := ["human", "rgb_array"]

/-- The configuration fields stored by `__init__`, immutable afterwards.
`render_mode = none` models Python `render_mode=None`. -/
structure Config where
  render_mode : Option String
  window_size : ℚ
  location_precision : ℚ
  max_absolute_location : ℚ
  max_absolute_velocity : ℚ
  max_absolute_acceleration : ℚ
  show_observation_traces : Bool
deriving DecidableEq, Repr

/-- The `assert render_mode is None or render_mode in self.metadata["render_modes"]`
guard in `__init__`. -/
def validRenderMode (rm : Option String) : Bool :=
  match rm with
  | none => true
  | some s => render_modes.contains s

/-- Embeds `__init__`: stores the fields; the only validation is the `assert` on
`render_mode` (a failing Python `assert` raises, modelled by `none`). -/
def init (render_mode : Option String) (window_size location_precision
    max_absolute_location max_absolute_velocity max_absolute_acceleration : ℚ)
    (show_observation_traces : Bool) : Option Config :=
  if validRenderMode render_mode then
    some ⟨render_mode, window_size, location_precision, max_absolute_location,
      max_absolute_velocity, max_absolute_acceleration, show_observation_traces⟩
  else none

/-- The mutable body state `self._agent_location`, ..., `self._hazard_velocity`. -/
structure WorldState where
  agent_location : Vec2
  agent_velocity : Vec2
  target_location : Vec2
  target_velocity : Vec2
  hazard_location : Vec2
  hazard_velocity : Vec2
deriving DecidableEq, Repr

/-- The seeded random source `self.np_random`: an abstract stream of 2-D
draws with a cursor.  Each `uniform(-m, m, size=2)` call returns the draw at
the cursor and advances it.  (The stream is the deterministic function of the
seed realised by numpy's generator; theorems that need the uniform-range
guarantee take `draws i ∈ [-m, m]²` as a hypothesis.) -/
structure RNG where
  draws : ℕ → Vec2
  idx : ℕ

/-- Embeds one `self.np_random.uniform(-m, m, size=2)` call. -/
def RNG.uniform2 (g : RNG) : Vec2 × RNG := (g.draws g.idx, ⟨g.draws, g.idx + 1⟩)

/-- The optional `options` mapping accepted by `reset`, with its three
recognised keys. -/
structure ResetOptions where
  agent_location : Option Vec2
  target_location : Option Vec2
  hazard_location : Option Vec2
deriving DecidableEq, Repr

/-- Embeds `options.get(key, default)` for the `"agent_location"` key, including the
`options is not None` guard. -/
def optAgent (options : Option ResetOptions) : Option Vec2 :=
  options.bind ResetOptions.agent_location

/-- Embeds `options.get(key, default)` for the `"target_location"` key. -/
def optTarget (options : Option ResetOptions) : Option Vec2 :=
  options.bind ResetOptions.target_location

/-- Embeds `options.get(key, default)` for the `"hazard_location"` key. -/
def optHazard (options : Option ResetOptions) : Option Vec2 :=
  options.bind ResetOptions.hazard_location

/-- Embeds `reset(seed, options)` after seeding: zeroes each velocity, draws each
location from the random source, then replaces it by the explicit override
when `options` supplies one.  Returns the new state and the advanced random
source.  (Rendering is a side effect with no influence on the returned
state and is not modelled.) -/
def reset (cfg : Config) (g : RNG) (options : Option ResetOptions) :
    WorldState × RNG :=
  let agent_velocity := Vec2.zero
  let (d0, g) := g.uniform2
  let agent_location := (optAgent options).getD d0
  let target_velocity := Vec2.zero
  let (d1, g) := g.uniform2
  let target_location := (optTarget options).getD d1
  let hazard_velocity := Vec2.zero
  let (d2, g) := g.uniform2
  let hazard_location := (optHazard options).getD d2
  (⟨agent_location, agent_velocity, target_location, target_velocity,
    hazard_location, hazard_velocity⟩, g)

/-- Embeds `_step(location, velocity, accelaretion, dt)`: clip the acceleration,
integrate and clip the velocity, integrate and clip the location. -/
def stepBody (cfg : Config) (location velocity accelaretion : Vec2) (dt : ℚ) :
    Vec2 × Vec2 :=
  let accelaretion := accelaretion.clip (-cfg.max_absolute_acceleration)
    cfg.max_absolute_acceleration
  let velocity := (velocity.add (accelaretion.mulS dt)).clip
    (-cfg.max_absolute_velocity) cfg.max_absolute_velocity
  let location := (location.add (velocity.mulS dt)).clip
    (-cfg.max_absolute_location) cfg.max_absolute_location
  (location, velocity)

/-- The value `dt = 1/self.metadata["render_fps"]` as computed in `step`. -/
def dt : ℚ := 1 / render_fps

/-- The 5-tuple returned by `step` (the observation is the state 6-tuple in
the order produced by `_get_obs`; `info` carries no state). -/
structure StepResult where
  obs : WorldState
  reward : ℚ
  terminated : Bool
  truncated : Bool
deriving DecidableEq, Repr

/-- Embeds `step(action)`: integrate the three bodies with `_step`, then
`terminated = np.linalg.norm(agent - target) < location_precision`,
`reward = -dt`, `truncated = False`. -/
def step (cfg : Config) (s : WorldState) (action : Vec2 × Vec2 × Vec2) :
    StepResult :=
  let (agent_location, agent_velocity) :=
    stepBody cfg s.agent_location s.agent_velocity action.1 dt
  let (target_location, target_velocity) :=
    stepBody cfg s.target_location s.target_velocity action.2.1 dt
  let (hazard_location, hazard_velocity) :=
    stepBody cfg s.hazard_location s.hazard_velocity action.2.2 dt
  let terminated := normLtQ (agent_location.sub target_location)
    cfg.location_precision
  let reward := -dt
  { obs := ⟨agent_location, agent_velocity, target_location, target_velocity,
      hazard_location, hazard_velocity⟩,
    reward := reward, terminated := terminated, truncated := false }

/-- The resource fields touched by `close`: `self.window`, `self.clock` and
the state of the pygame display subsystem that `pygame.display.quit()` /
`pygame.quit()` tear down. -/
structure Resources where
  window : Option Unit
  clock : Option Unit
  displayOpen : Bool
  pygameOpen : Bool
deriving DecidableEq, Repr

/-- Embeds `close()`: if a window was allocated, quit the display and pygame;
the `window`/`clock` fields themselves are not reassigned. -/
def close (e : Resources) : Resources :=
  if e.window.isSome then { e with displayOpen := false, pygameOpen := false }
  else e

/-- The list of states visited from `s` under a finite action sequence:
the state itself, then every post-step state. -/
def statesFrom (cfg : Config) (s : WorldState) :
    List (Vec2 × Vec2 × Vec2) → List WorldState
  | [] => [s]
  | a :: rest => s :: statesFrom cfg (step cfg s a).obs rest

/-- The step results of running a finite action sequence from `s`. -/
def runSteps (cfg : Config) (s : WorldState) :
    List (Vec2 × Vec2 × Vec2) → List StepResult
  | [] => []
  | a :: rest =>
    let r := step cfg s a
    r :: runSteps cfg r.obs rest

/-- A full episode: seed the random source (numpy's generator is a
deterministic function of the seed, here realised by an arbitrary fixed map
`seedStream` from seeds to streams), reset, then run the action sequence.
Returns the initial observation and every step's result. -/
def run (cfg : Config) (seedStream : ℕ → ℕ → Vec2) (seed : ℕ)
    (options : Option ResetOptions) (acts : List (Vec2 × Vec2 × Vec2)) :
    WorldState × List StepResult :=
  let (s0, _) := reset cfg ⟨seedStream seed, 0⟩ options
  (s0, runSteps cfg s0 acts)

/-- Every body within its box: locations within `[-max_absolute_location, max_absolute_location]²`,
velocities within `[-max_absolute_velocity, max_absolute_velocity]²`. -/
def inBoxState (cfg : Config) (s : WorldState) : Prop :=
  s.agent_location.inBox cfg.max_absolute_location ∧
  s.agent_velocity.inBox cfg.max_absolute_velocity ∧
  s.target_location.inBox cfg.max_absolute_location ∧
  s.target_velocity.inBox cfg.max_absolute_velocity ∧
  s.hazard_location.inBox cfg.max_absolute_location ∧
  s.hazard_velocity.inBox cfg.max_absolute_velocity

/-- All states in a list within their boxes. -/
def allBounded (cfg : Config) : List WorldState → Prop
  | [] => True
  | s :: rest => inBoxState cfg s ∧ allBounded cfg rest

/-- Every override supplied by the options lies within `[-m, m]²`. -/
def optionsInBox (options : Option ResetOptions) (m : ℚ) : Prop :=
  (∀ v ∈ optAgent options, v.inBox m) ∧
  (∀ v ∈ optTarget options, v.inBox m) ∧
  (∀ v ∈ optHazard options, v.inBox m)

/-- The integrator contract stated by the spec, one axis.  Modelled from the
spec's words (§4.1): clip the acceleration to
`[-max_absolute_acceleration, max_absolute_acceleration]`, then
`velocity' = clip(velocity + acceleration·dt, [-max_absolute_velocity, max_absolute_velocity])`,
then `position' = clip(position + velocity'·dt, [-max_absolute_location, max_absolute_location])`. -/
def advanceAxisSpec (p v a dtv maxA maxV maxL : ℚ) : ℚ × ℚ :=
  let a2 := clipQ a (-maxA) maxA
  let v2 := clipQ (v + a2 * dtv) (-maxV) maxV
  let p2 := clipQ (p + v2 * dtv) (-maxL) maxL
  (p2, v2)

/-- Default configuration of `__init__` (used for concrete evaluations). -/
def defaultCfg : Config :=
  ⟨none, 500, 1 / 100, 1, 1, 1, false⟩

/-- A concrete draw stream, all zero. -/
def zeroStream : ℕ → Vec2 := fun _ => Vec2.zero

/-- A concrete draw stream whose i-th draw is `(i, 0)`. -/
def indexStream : ℕ → Vec2 := fun i => ⟨(i : ℚ), 0⟩

/-- The zero-acceleration action for all three bodies. -/
def zeroAction : Vec2 × Vec2 × Vec2 := (Vec2.zero, Vec2.zero, Vec2.zero)

end TargetHazardWorld

namespace TargetHazardWorld

/-- C2: for every configuration, state and acceleration, `_step` computes
exactly the spec's per-axis integrator (clip acceleration, then clipped
velocity update, then clipped position update, independently per axis),
returns the pair `(position', velocity')`, is a pure function of its inputs,
and `step` invokes it with `dt = 1/render_fps = 1/24`. -/
theorem stepBody_matches_integrator_contract (cfg : Config)
    (location velocity accelaretion : Vec2) (dtv : ℚ) :
    stepBody cfg location velocity accelaretion dtv =
      (⟨(advanceAxisSpec location.x velocity.x accelaretion.x dtv
            cfg.max_absolute_acceleration cfg.max_absolute_velocity
            cfg.max_absolute_location).1,
        (advanceAxisSpec location.y velocity.y accelaretion.y dtv
            cfg.max_absolute_acceleration cfg.max_absolute_velocity
            cfg.max_absolute_location).1⟩,
       ⟨(advanceAxisSpec location.x velocity.x accelaretion.x dtv
            cfg.max_absolute_acceleration cfg.max_absolute_velocity
            cfg.max_absolute_location).2,
        (advanceAxisSpec location.y velocity.y accelaretion.y dtv
            cfg.max_absolute_acceleration cfg.max_absolute_velocity
            cfg.max_absolute_location).2⟩) ∧
    dt = 1 / 24 :=
  ⟨rfl, rfl⟩

/-- C4: every call to `step` returns reward `-1/24` (`-dt` with
`dt = 1/render_fps`, `render_fps = 24`), regardless of the state, the
action, the termination outcome and the hazard position. -/
theorem step_reward_const (cfg : Config) (s : WorldState)
    (action : Vec2 × Vec2 × Vec2) :
    (step cfg s action).reward = -(1 / 24) :=
  rfl

/-- C7: every call to `step` returns `truncated = false`; there is no
internal step-count limit. -/
theorem step_truncated_false (cfg : Config) (s : WorldState)
    (action : Vec2 × Vec2 × Vec2) :
    (step cfg s action).truncated = false :=
  rfl

/-- C9: `close` is idempotent on the environment's resource state, and on a
state where no window was ever allocated it is a no-op. -/
theorem close_idem (e : Resources) :
    close (close e) = close e ∧
    close { e with window := none } = { e with window := none } := by
  constructor
  · unfold close
    cases h : e.window.isSome <;> simp [h]
  · simp [close]

/-- C6: for every configuration, random source and options, `reset` zeroes
all three velocities, and each body's location equals the explicitly
supplied override when the options carry that body's key (hence independent
of the random source), and otherwise equals that body's uniform draw from
the seeded random source (draws taken in order agent, target, hazard). -/
theorem reset_velocities_zero_and_location_rule (cfg : Config) (g : RNG)
    (options : Option ResetOptions) :
    (reset cfg g options).1.agent_velocity = Vec2.zero ∧
    (reset cfg g options).1.target_velocity = Vec2.zero ∧
    (reset cfg g options).1.hazard_velocity = Vec2.zero ∧
    (reset cfg g options).1.agent_location
      = (optAgent options).getD (g.draws g.idx) ∧
    (reset cfg g options).1.target_location
      = (optTarget options).getD (g.draws (g.idx + 1)) ∧
    (reset cfg g options).1.hazard_location
      = (optHazard options).getD (g.draws (g.idx + 2)) :=
  ⟨rfl, rfl, rfl, rfl, rfl, rfl⟩

/-- C10: `reset` always consumes exactly three uniform draws from the
random source (the cursor advances by 3, the stream is untouched), in the
fixed order agent, target, hazard; a body whose location is not overridden
receives the draw at its fixed offset, whatever the other overrides are. -/
theorem reset_consumes_three_draws (cfg : Config) (g : RNG)
    (options : Option ResetOptions) :
    (reset cfg g options).2.idx = g.idx + 3 ∧
    (reset cfg g options).2.draws = g.draws ∧
    (optAgent options = none →
      (reset cfg g options).1.agent_location = g.draws g.idx) ∧
    (optTarget options = none →
      (reset cfg g options).1.target_location = g.draws (g.idx + 1)) ∧
    (optHazard options = none →
      (reset cfg g options).1.hazard_location = g.draws (g.idx + 2)) := by
  refine ⟨?_, rfl, ?_, ?_, ?_⟩
  · show g.idx + 1 + 1 + 1 = g.idx + 3
    omega
  · intro h
    show (optAgent options).getD (g.draws g.idx) = g.draws g.idx
    rw [h]; rfl
  · intro h
    show (optTarget options).getD (g.draws (g.idx + 1)) = g.draws (g.idx + 1)
    rw [h]; rfl
  · intro h
    show (optHazard options).getD (g.draws (g.idx + 2)) = g.draws (g.idx + 2)
    rw [h]; rfl

/-- Witness for C10 at a concrete random source and empty options. -/
theorem reset_consumes_three_draws_witness :
    (reset defaultCfg ⟨indexStream, 0⟩ none).2.idx = 0 + 3 ∧
    (reset defaultCfg ⟨indexStream, 0⟩ none).1.agent_location = indexStream 0 ∧
    (reset defaultCfg ⟨indexStream, 0⟩ none).1.target_location
      = indexStream (0 + 1) ∧
    (reset defaultCfg ⟨indexStream, 0⟩ none).1.hazard_location
      = indexStream (0 + 2) := by
  obtain ⟨h1, h2, h3, h4, h5⟩ :=
    reset_consumes_three_draws defaultCfg ⟨indexStream, 0⟩ none
  exact ⟨h1, h3 rfl, h4 rfl, h5 rfl⟩

/-- C5: two episodes with the same configuration, the same seed (hence the
same draw stream under the fixed seed-to-stream map realised by the seeded
generator), the same options and the same action sequence produce identical
initial observations and identical sequences of step results
(observation, reward, terminated, truncated). -/
theorem run_deterministic (cfg : Config) (seedStream : ℕ → ℕ → Vec2)
    (s1 s2 : ℕ) (o1 o2 : Option ResetOptions)
    (a1 a2 : List (Vec2 × Vec2 × Vec2))
    (hs : s1 = s2) (ho : o1 = o2) (ha : a1 = a2) :
    run cfg seedStream s1 o1 a1 = run cfg seedStream s2 o2 a2 := by
  subst hs; subst ho; subst ha; rfl

/-- Witness for C5 at a concrete seed, options and action list. -/
theorem run_deterministic_witness :
    run defaultCfg (fun _ => indexStream) 7 none [zeroAction] =
      run defaultCfg (fun _ => indexStream) 7 none [zeroAction] :=
  run_deterministic defaultCfg (fun _ => indexStream) 7 7 none none
    [zeroAction] [zeroAction] rfl rfl rfl

/-- C8: construction succeeds exactly when `render_mode` lies in the
allowed set `{None, "human", "rgb_array"}`; every choice of the remaining
constructor arguments is accepted unvalidated. -/
theorem init_succeeds_iff_valid_render_mode (rm : Option String)
    (ws lp ml mv ma : ℚ) (tr : Bool) :
    (init rm ws lp ml mv ma tr).isSome = true ↔
      rm = none ∨ rm = some "human" ∨ rm = some "rgb_array" := by
  cases rm with
  | none => simp [init, validRenderMode]
  | some s =>
    simp only [init, validRenderMode, render_modes]
    constructor
    · intro h
      by_cases h1 : s = "human"
      · exact Or.inr (Or.inl (by rw [h1]))
      · by_cases h2 : s = "rgb_array"
        · exact Or.inr (Or.inr (by rw [h2]))
        · exfalso
          simp [List.contains, h1, h2] at h
    · rintro (h | h | h)
      · exact absurd h (by simp)
      · have hs : s = "human" := by injection h
        simp [List.contains, hs]
      · have hs : s = "rgb_array" := by injection h
        simp [List.contains, hs]

/-- The decision procedure `normLtQ` agrees with the comparison of the real Euclidean norm:
`‖v‖ < c` over ℝ iff `0 < c` and `‖v‖² < c²` over ℚ. -/
theorem normLtQ_iff_sqrt (v : Vec2) (c : ℚ) :
    normLtQ v c = true ↔
      Real.sqrt ((v.normSq : ℚ) : ℝ) < (c : ℝ) := by
  unfold normLtQ
  rw [decide_eq_true_iff]
  constructor
  · rintro ⟨hc, hlt⟩
    have hc2 : (0 : ℝ) < (c : ℝ) := by exact_mod_cast hc
    rw [Real.sqrt_lt' hc2]
    exact_mod_cast hlt
  · intro h
    have h0 : (0 : ℝ) ≤ Real.sqrt ((v.normSq : ℚ) : ℝ) := Real.sqrt_nonneg _
    have hc2 : (0 : ℝ) < (c : ℝ) := lt_of_le_of_lt h0 h
    have hc : 0 < c := by exact_mod_cast hc2
    refine ⟨hc, ?_⟩
    rw [Real.sqrt_lt' hc2] at h
    exact_mod_cast h

/-- C3: `step` returns `terminated = true` exactly when the real Euclidean
distance between the agent's and the target's positions, taken after all
three bodies have been integrated for this step, is strictly below
`location_precision`. -/
theorem step_terminated_iff_distance_lt (cfg : Config) (s : WorldState)
    (action : Vec2 × Vec2 × Vec2) :
    (step cfg s action).terminated = true ↔
      Real.sqrt ((((step cfg s action).obs.agent_location.sub
          (step cfg s action).obs.target_location).normSq : ℚ) : ℝ)
        < (cfg.location_precision : ℝ) := by
  have h : (step cfg s action).terminated =
      normLtQ ((step cfg s action).obs.agent_location.sub
        (step cfg s action).obs.target_location) cfg.location_precision := rfl
  rw [h, normLtQ_iff_sqrt]

/-- Clipping to `[-m, m]` lands in `[-m, m]` when `0 ≤ m`. -/
theorem abs_clipQ_le (a m : ℚ) (hm : 0 ≤ m) : |clipQ a (-m) m| ≤ m := by
  rw [abs_le]
  unfold clipQ
  exact ⟨le_min (le_max_right a (-m)) (neg_le_self hm), min_le_right _ _⟩

/-- Componentwise clipping to `[-m, m]` lands in the box when `0 ≤ m`. -/
theorem clip_inBox (v : Vec2) (m : ℚ) (hm : 0 ≤ m) :
    (v.clip (-m) m).inBox m :=
  ⟨abs_clipQ_le _ _ hm, abs_clipQ_le _ _ hm⟩

/-- For any (even unbounded) inputs, `_step` returns a location inside the
location box and a velocity inside the velocity box, provided the bounds are
nonnegative. -/
theorem stepBody_inBox (cfg : Config) (loc vel acc : Vec2) (dtv : ℚ)
    (hml : 0 ≤ cfg.max_absolute_location)
    (hmv : 0 ≤ cfg.max_absolute_velocity) :
    (stepBody cfg loc vel acc dtv).1.inBox cfg.max_absolute_location ∧
    (stepBody cfg loc vel acc dtv).2.inBox cfg.max_absolute_velocity :=
  ⟨clip_inBox _ _ hml, clip_inBox _ _ hmv⟩

/-- Every observation returned by `step` lies in the boxes (regardless of
the incoming state). -/
theorem step_inBox (cfg : Config) (s : WorldState) (action : Vec2 × Vec2 × Vec2)
    (hml : 0 ≤ cfg.max_absolute_location)
    (hmv : 0 ≤ cfg.max_absolute_velocity) :
    inBoxState cfg (step cfg s action).obs := by
  obtain ⟨ha1, ha2⟩ :=
    stepBody_inBox cfg s.agent_location s.agent_velocity action.1 dt hml hmv
  obtain ⟨ht1, ht2⟩ :=
    stepBody_inBox cfg s.target_location s.target_velocity action.2.1 dt hml hmv
  obtain ⟨hh1, hh2⟩ :=
    stepBody_inBox cfg s.hazard_location s.hazard_velocity action.2.2 dt hml hmv
  exact ⟨ha1, ha2, ht1, ht2, hh1, hh2⟩

/-- The zero vector lies in every box with nonnegative bound. -/
theorem zero_inBox (m : ℚ) (hm : 0 ≤ m) : Vec2.zero.inBox m := by
  constructor <;> simpa [Vec2.zero] using hm

/-- The state returned by `reset` lies in the boxes, provided the draws and
all supplied overrides do. -/
theorem reset_inBox (cfg : Config) (g : RNG) (options : Option ResetOptions)
    (hml : 0 ≤ cfg.max_absolute_location)
    (hmv : 0 ≤ cfg.max_absolute_velocity)
    (hdraws : ∀ i, (g.draws i).inBox cfg.max_absolute_location)
    (hopts : optionsInBox options cfg.max_absolute_location) :
    inBoxState cfg (reset cfg g options).1 := by
  obtain ⟨hoa, hot, hoh⟩ := hopts
  refine ⟨?_, zero_inBox _ hmv, ?_, zero_inBox _ hmv, ?_, zero_inBox _ hmv⟩
  · show ((optAgent options).getD
        (g.draws g.idx)).inBox cfg.max_absolute_location
    cases h : optAgent options with
    | none => exact hdraws g.idx
    | some v => exact hoa v h
  · show ((optTarget options).getD
        (g.draws (g.idx + 1))).inBox cfg.max_absolute_location
    cases h : optTarget options with
    | none => exact hdraws (g.idx + 1)
    | some v => exact hot v h
  · show ((optHazard options).getD
        (g.draws (g.idx + 2))).inBox cfg.max_absolute_location
    cases h : optHazard options with
    | none => exact hdraws (g.idx + 2)
    | some v => exact hoh v h

/-- All states reached from a bounded state stay bounded. -/
theorem statesFrom_bounded (cfg : Config)
    (hml : 0 ≤ cfg.max_absolute_location)
    (hmv : 0 ≤ cfg.max_absolute_velocity) :
    ∀ (acts : List (Vec2 × Vec2 × Vec2)) (s : WorldState),
      inBoxState cfg s → allBounded cfg (statesFrom cfg s acts) := by
  intro acts
  induction acts with
  | nil => exact fun s hs => ⟨hs, trivial⟩
  | cons a rest ih =>
    exact fun s hs => ⟨hs, ih (step cfg s a).obs (step_inBox cfg s a hml hmv)⟩

/-- C1 (amended): for every configuration with nonnegative bounds, every
random source whose draws lie in the location box, every options mapping all
of whose supplied overrides lie in the location box, and every finite action
sequence, every body's position and velocity components respect the bounds
in the observation returned by `reset` and after every `step`. -/
theorem positions_velocities_bounded (cfg : Config) (g : RNG)
    (options : Option ResetOptions) (acts : List (Vec2 × Vec2 × Vec2))
    (hml : 0 ≤ cfg.max_absolute_location)
    (hmv : 0 ≤ cfg.max_absolute_velocity)
    (hdraws : ∀ i, (g.draws i).inBox cfg.max_absolute_location)
    (hopts : optionsInBox options cfg.max_absolute_location) :
    allBounded cfg (statesFrom cfg (reset cfg g options).1 acts) :=
  statesFrom_bounded cfg hml hmv acts _
    (reset_inBox cfg g options hml hmv hdraws hopts)

/-- Witness for C1 (amended) at the default configuration, the zero draw
stream, no overrides and one zero-acceleration step. -/
theorem positions_velocities_bounded_witness :
    allBounded defaultCfg (statesFrom defaultCfg
      (reset defaultCfg ⟨zeroStream, 0⟩ none).1 [zeroAction]) :=
  positions_velocities_bounded defaultCfg ⟨zeroStream, 0⟩ none [zeroAction]
    (by norm_num [defaultCfg])
    (by norm_num [defaultCfg])
    (fun i => by constructor <;> norm_num [zeroStream, Vec2.zero, defaultCfg])
    ⟨by simp [optAgent], by simp [optTarget], by simp [optHazard]⟩

/-- C1 counterexample: with the default configuration
(`max_absolute_location = 1`), calling `reset` with the override
`agent_location = (2, 0)` returns an observation whose agent position lies
outside the location box — `reset` copies an out-of-range override
verbatim, so the claimed bound fails for arbitrary options. -/
theorem reset_override_escapes_box :
    ¬ (reset defaultCfg ⟨zeroStream, 0⟩
        (some ⟨some ⟨2, 0⟩, none, none⟩)).1.agent_location.inBox
        defaultCfg.max_absolute_location := by
  decide

end TargetHazardWorld
